import Mathlib

/-!
# EXTSMI# eject-interrupt driver (arch/x86/xbox/xbox-extsmi.c)

A shallow embedding of the driver: every C function becomes a Lean function
from the answers of its environment and the module's state to the list of
external operations it performs (in program order), its return value and
the new state.
-/

namespace Extsmi

/-! ## Constants of include/linux/xbox.h and xbox-extsmi.c -/

def SMC_CMD_EJECT : Nat := 0x0c
def SMC_CMD_INTERRUPT_RESPOND : Nat := 0x0d
def SMC_CMD_INTERRUPT_REASON : Nat := 0x11
def SMC_CMD_RESET_ON_EJECT : Nat := 0x19
def SMC_SUBCMD_RESPOND_CONTINUE : Nat := 0x04
def SMC_SUBCMD_EJECT_EJECT : Nat := 0x00
def SMC_SUBCMD_RESET_ON_EJECT_DISABLE : Nat := 0x01
def TRAYBUTTON_MASK : Int := 1 <<< 5

def IRQ : Nat := 12
def BASE : Nat := 0x8000
def PM02 : Nat := BASE + 0x02
def PM04 : Nat := BASE + 0x04
def PM20 : Nat := BASE + 0x20
def PM22 : Nat := BASE + 0x22
def EXTSMI_EN_MASK : Int := 0x0002

/-! ## External operations -/

/-- Flags argument of request_irq; the driver only ever passes IRQF_SHARED. -/
inductive IrqFlags
  | IRQF_SHARED
  deriving DecidableEq, Repr

/-- Log level of a printk call. -/
inductive KernLevel
  | KERN_INFO
  | KERN_ERR
  deriving DecidableEq, Repr

/-- Return type of an interrupt handler (linux/irqreturn.h). -/
inductive irqreturn_t
  | IRQ_NONE
  | IRQ_HANDLED
  | IRQ_WAKE_THREAD
  deriving DecidableEq, Repr

/-- One operation the driver performs on something outside itself: an I/O
port, the system controller (SMC), the kernel's thread and IRQ services, or
the kernel log.  Port operations keep the C argument order (value, port). -/
inductive Op
  | inw (port : Nat)
  | outw (value port : Nat)
  | outb (value port : Nat)
  | smc_read (cmd : Nat)
  | smc_write (cmd value : Nat)
  | kthread_run
  | kthread_stop (task : Nat)
  | request_irq (irq : Nat) (flags : IrqFlags) (dev_id : Nat)
  | free_irq (irq dev_id : Nat)
  | printk (level : KernLevel) (fmt : String) (arg : Option Int)
  deriving DecidableEq, Repr

/-- The 16-bit or 8-bit port writes of a trace, as (value, port) pairs. -/
def portWrites : List Op → List (Nat × Nat)
  | [] => []
  | Op.outw v p :: t => (v, p) :: portWrites t
  | Op.outb v p :: t => (v, p) :: portWrites t
  | _ :: t => portWrites t

/-- The port reads of a trace. -/
def portReads : List Op → List Nat
  | [] => []
  | Op.inw p :: t => p :: portReads t
  | _ :: t => portReads t

/-- The controller writes of a trace, as (command, value) pairs. -/
def smcWrites : List Op → List (Nat × Nat)
  | [] => []
  | Op.smc_write c v :: t => (c, v) :: smcWrites t
  | _ :: t => smcWrites t

/-- The controller reads of a trace (the command of each). -/
def smcReads : List Op → List Nat
  | [] => []
  | Op.smc_read c :: t => c :: smcReads t
  | _ :: t => smcReads t

/-- The operations of a trace other than reads and log messages: port
writes, controller writes and calls of the kernel's thread and IRQ
services. -/
def actions : List Op → List Op
  | [] => []
  | Op.inw _ :: t => actions t
  | Op.smc_read _ :: t => actions t
  | Op.printk _ _ _ :: t => actions t
  | o :: t => o :: actions t

/-! ## Environment and state -/

/-- What the collaborators answer while one driver function runs.
IS_ERR is the kernel's test on a returned pointer (linux/err.h); it is not
part of the driver's sources and is taken as given. -/
structure Env where
  /-- result of machine_is_xbox() -/
  machine_is_xbox : Int
  /-- contents the hardware presents on a 16-bit port read -/
  port_in : Nat → Nat
  /-- result of xbox_smc_read(cmd), a C int -/
  xbox_smc_read : Nat → Int
  /-- pointer returned by kthread_run -/
  kthread_run : Nat
  /-- the kernel's IS_ERR on a pointer -/
  IS_ERR : Nat → Bool
  /-- result of request_irq -/
  request_irq : Int

/-- Where the Worker thread (extsmi_thread) stands. -/
inductive WorkerPc
  /-- kthread_run has not created the thread -/
  | not_started
  /-- about to call extsmi_process (top of the do-while body) -/
  | process
  /-- about to call, or blocked in, mutex_lock_interruptible -/
  | lock
  /-- about to evaluate the loop condition !kthread_should_stop() -/
  | check
  /-- returned from extsmi_thread -/
  | exited
  deriving DecidableEq, Repr

/-- The module's variables together with the state of its Worker thread. -/
structure State where
  /-- extsmi_sem: true when the mutex is held (locked) -/
  extsmi_sem_locked : Bool
  /-- extsmi_task: the task pointer, 0 for NULL -/
  extsmi_task : Nat
  /-- the global Xbox_simulate_drive_locked -/
  Xbox_simulate_drive_locked : Int
  /-- program counter of the Worker thread -/
  worker : WorkerPc
  /-- what kthread_should_stop() answers to the Worker -/
  should_stop : Bool
  deriving DecidableEq, Repr

/-- State at module load: DEFINE_MUTEX leaves extsmi_sem unlocked,
extsmi_task is NULL, Xbox_simulate_drive_locked is 0, no thread exists. -/
def State.initial : State :=
  { extsmi_sem_locked := false, extsmi_task := 0, Xbox_simulate_drive_locked := 0,
    worker := WorkerPc.not_started, should_stop := false }

/-! ## C arithmetic -/

/-- The C operator & on two 32-bit ints (two's complement): both operands
are taken modulo 2^32, combined bitwise, and the result is read back as a
signed 32-bit value. -/
def int_and (a b : Int) : Int :=
  let r : Nat := (a % 2 ^ 32).toNat &&& (b % 2 ^ 32).toNat
  if r < 2 ^ 31 then (r : Int) else (r : Int) - 2 ^ 32

/-! ## Port primitives -/

/-- Value of inw(port): an unsigned 16-bit quantity. -/
def inw (env : Env) (port : Nat) : Nat := env.port_in port % 2 ^ 16

/-- Operation of outw(value, port): the int argument is converted to u16. -/
def outw (value : Int) (port : Nat) : Op := Op.outw (value % 2 ^ 16).toNat port

/-- Operation of outb(value, port): the int argument is converted to u8. -/
def outb (value : Int) (port : Nat) : Op := Op.outb (value % 2 ^ 8).toNat port

/-- Operation of xbox_smc_write(cmd, value). -/
def xbox_smc_write (cmd value : Nat) : Op := Op.smc_write cmd value

/-- The macro xbox_tray_eject(). -/
def xbox_tray_eject : Op := xbox_smc_write SMC_CMD_EJECT SMC_SUBCMD_EJECT_EJECT

/-! ## Kernel primitives on the module's state -/

/-- Modelled from the spec: the kernel mutex behind extsmi_sem is not among
the driver's sources.  The Wake Signal is binary; setting it when it is
already signaled changes nothing, so signals coalesce.  mutex_unlock
leaves the mutex unlocked (signaled) whatever it was before. -/
def mutex_unlock (s : State) : State := { s with extsmi_sem_locked := false }

/-- Modelled from the spec: the kernel mutex behind extsmi_sem is not among
the driver's sources.  The Worker waits until the signal is set, then clears
it and proceeds: mutex_lock_interruptible takes the mutex when it is
unlocked and otherwise has to wait (none).  A kernel thread has every signal
ignored and the driver never allows one, so the wait is not interrupted. -/
def mutex_lock_interruptible (s : State) : Option State :=
  if s.extsmi_sem_locked then none else some { s with extsmi_sem_locked := true }

/-- Modelled from the spec: kthread_should_stop is not among the driver's
sources.  It tells the Worker whether its stop has been requested. -/
def kthread_should_stop (s : State) : Bool := s.should_stop

/-- Modelled from the spec: kthread_stop is not among the driver's sources.
It requests the Worker to stop; the Worker notices at its next loop test.
That the caller then waits for the thread to return is not represented. -/
def kthread_stop (s : State) : State := { s with should_stop := true }

/-! ## The driver -/

/-- Function extsmi_interrupt: read the GPE status, write it back, unlock the
mutex when bit 0x2 is set, return IRQ_HANDLED. -/
def extsmi_interrupt (env : Env) (s : State) : irqreturn_t × List Op × State :=
  let reason : Int := (inw env 0x8020 : Nat)
  let ops := [Op.inw 0x8020, outw reason 0x8020]
  if int_and reason 0x2 ≠ 0 then
    (irqreturn_t.IRQ_HANDLED, ops, mutex_unlock s)
  else
    (irqreturn_t.IRQ_HANDLED, ops, s)

/-- Function extsmi_process: one Worker pass. -/
def extsmi_process (env : Env) (s : State) : List Op × State :=
  let reason : Int := env.xbox_smc_read SMC_CMD_INTERRUPT_REASON
  let ops := [Op.smc_read SMC_CMD_INTERRUPT_REASON]
  if int_and reason TRAYBUTTON_MASK ≠ 0 then
    let ops := ops ++ [xbox_smc_write SMC_CMD_INTERRUPT_RESPOND SMC_SUBCMD_RESPOND_CONTINUE]
    let ops := ops ++ [xbox_smc_write 0x00 0x0c]
    if s.Xbox_simulate_drive_locked = 0 then
      (ops ++ [xbox_tray_eject], s)
    else
      (ops, s)
  else
    (ops, s)

/-- One scheduling step of extsmi_thread: a do-while loop whose body calls
extsmi_process() and then mutex_lock_interruptible(&extsmi_sem), repeated
while !kthread_should_stop(); after the loop extsmi_task is set to NULL.
The result is none when the thread cannot run: it does not exist, has
returned, or is blocked on the locked mutex. -/
def extsmi_thread_step (env : Env) (s : State) : Option (List Op × State) :=
  match s.worker with
  | WorkerPc.not_started => none
  | WorkerPc.exited => none
  | WorkerPc.process =>
      let r := extsmi_process env s
      some (r.1, { r.2 with worker := WorkerPc.lock })
  | WorkerPc.lock =>
      match mutex_lock_interruptible s with
      | none => none
      | some s => some ([], { s with worker := WorkerPc.check })
  | WorkerPc.check =>
      if kthread_should_stop s then
        some ([], { s with extsmi_task := 0, worker := WorkerPc.exited })
      else
        some ([], { s with worker := WorkerPc.process })

/-- Function extsmi_init.  It returns the int result, the operations
performed and the new state. -/
def extsmi_init (env : Env) (s : State) : Int × List Op × State :=
  let ret : Int := -1
  if env.machine_is_xbox = 0 then
    (ret, [], s)
  else
    let s := { s with extsmi_task := env.kthread_run, worker := WorkerPc.process }
    let ops := [Op.kthread_run]
    if env.IS_ERR s.extsmi_task then
      (ret, ops, { s with extsmi_task := 0, worker := WorkerPc.not_started })
    else
      let ops := ops ++ [Op.printk KernLevel.KERN_INFO
        "xbox-extsmi: Original Xbox EXTSMI# eject IRQ handler\n" none]
      let ops := ops ++ [Op.inw 0x80e2, outw (int_and (inw env 0x80e2 : Nat) 0xf8c7) 0x80e2]
      let ops := ops ++ [outw 0 0x80ac]
      let ops := ops ++ [outb 0 0x8025]
      let ops := ops ++ [outw EXTSMI_EN_MASK PM22]
      let ops := ops ++ [outw 0 PM02]
      let ops := ops ++ [outb 1 PM04]
      let ops := ops ++ [xbox_smc_write SMC_CMD_RESET_ON_EJECT SMC_SUBCMD_RESET_ON_EJECT_DISABLE]
      let ret := env.request_irq
      let ops := ops ++ [Op.request_irq IRQ IrqFlags.IRQF_SHARED 1]
      if ret ≠ 0 then
        let ops := ops ++ [Op.printk KernLevel.KERN_ERR
          "xbox-extsmi: failed to register eject IRQ handler. (%i)\n" (some ret)]
        let ops := ops ++ [Op.kthread_stop s.extsmi_task]
        let s := kthread_stop s
        (ret, ops, { s with extsmi_task := 0 })
      else
        (ret, ops, s)

/-- Function extsmi_exit. -/
def extsmi_exit (s : State) : List Op × State :=
  if s.extsmi_task = 0 then
    ([], s)
  else
    let ops := [Op.free_irq IRQ 1, Op.kthread_stop s.extsmi_task]
    let s := kthread_stop s
    (ops, { s with extsmi_task := 0 })

/-! ## Harnesses: sequences of passes and interleavings -/

/-- A burst of Worker passes.  Before each pass the external owner of the
drive-lock flag stores a value into Xbox_simulate_drive_locked; the pass
then runs against the controller answers of its own environment.  The result
is the trace of each pass, in order, and the final state. -/
def run_passes : List (Env × Int) → State → List (List Op) × State
  | [], s => ([], s)
  | (env, flag) :: rest, s =>
      let r := extsmi_process env { s with Xbox_simulate_drive_locked := flag }
      let r2 := run_passes rest r.2
      (r.1 :: r2.1, r2.2)

/-- Consecutive Worker passes with nothing happening in between, one per
environment of the list.  The result is the whole trace and the final
state. -/
def consecutive_passes : List Env → State → List Op × State
  | [], s => ([], s)
  | env :: rest, s =>
      let r := extsmi_process env s
      let r2 := consecutive_passes rest r.2
      (r.1 ++ r2.1, r2.2)

/-- The trace of one pass that saw the tray button, for a given value of
the drive-lock flag: the reason read, the respond write, the write of 0x0c
to command 0x00, and the eject write unless the flag is set. -/
def ejectPassTrace (flag : Int) : List Op :=
  [Op.smc_read 0x11, Op.smc_write 0x0d 0x04, Op.smc_write 0x00 0x0c] ++
    (if flag = 0 then [Op.smc_write 0x0c 0x00] else [])

/-- A sample environment: an Xbox on which thread creation and IRQ
registration succeed; every port reads as status and the controller
answers reason to every read. -/
def sampleEnv (status : Nat) (reason : Int) : Env :=
  { machine_is_xbox := 1, port_in := fun _ => status, xbox_smc_read := fun _ => reason,
    kthread_run := 0xc1000000, IS_ERR := fun p => decide (2 ^ 32 - 4095 ≤ p),
    request_irq := 0 }

/-- The sample environment on a machine that is not an Xbox. -/
def notXboxEnv : Env := { sampleEnv 0 0 with machine_is_xbox := 0 }

/-- The sample environment with request_irq failing with code e. -/
def irqFailEnv (e : Int) : Env := { sampleEnv 0 0 with request_irq := e }

/-- A sample state of the active subsystem: Worker blocked in the mutex
wait, IRQ registered. -/
def activeState : State :=
  { extsmi_sem_locked := true, extsmi_task := 0xc1000000, Xbox_simulate_drive_locked := 0,
    worker := WorkerPc.lock, should_stop := false }

/-- Something that happens to the running subsystem. -/
inductive Event
  /-- the interrupt line is asserted; extsmi_interrupt runs to completion -/
  | irq (env : Env)
  /-- the scheduler lets the Worker thread take one step -/
  | worker (env : Env)
  /-- the external owner stores a value into Xbox_simulate_drive_locked -/
  | set_flag (v : Int)

/-- A run of the subsystem: the module state, the operations performed so
far (oldest first), the number of calls of extsmi_process and the number of
calls of extsmi_interrupt. -/
structure Sys where
  state : State
  trace : List Op
  passes : Nat
  asserts : Nat

/-- Effect of one event.  A Worker step that cannot run (blocked on the
mutex, not started, exited) changes nothing. -/
def Sys.step (y : Sys) : Event → Sys
  | Event.irq env =>
      let r := extsmi_interrupt env y.state
      { y with state := r.2.2, trace := y.trace ++ r.2.1, asserts := y.asserts + 1 }
  | Event.worker env =>
      match extsmi_thread_step env y.state with
      | none => y
      | some r =>
          { y with state := r.2, trace := y.trace ++ r.1,
                   passes := if y.state.worker = WorkerPc.process then y.passes + 1 else y.passes }
  | Event.set_flag v =>
      { y with state := { y.state with Xbox_simulate_drive_locked := v } }

/-- Effect of a sequence of events, first event first. -/
def Sys.run (y : Sys) (evs : List Event) : Sys := evs.foldl Sys.step y

/-- A run that begins in state s with nothing counted yet. -/
def Sys.start (s : State) : Sys := { state := s, trace := [], passes := 0, asserts := 0 }

/-- Passes already made plus passes the Worker can still make without a
further unlock: one when it stands before extsmi_process or before the loop
test, one when the mutex is unlocked. -/
def Sys.credit (y : Sys) : Nat :=
  y.passes
    + (if y.state.worker = WorkerPc.process ∨ y.state.worker = WorkerPc.check then 1 else 0)
    + (if y.state.extsmi_sem_locked = true then 0 else 1)

/-- Number of interrupt assertions in an event sequence whose GPE status
value has bit 0x0002 set. -/
def wakingAsserts : List Event → Nat
  | [] => 0
  | Event.irq env :: t => (if (inw env 0x8020).testBit 1 then 1 else 0) + wakingAsserts t
  | _ :: t => wakingAsserts t

/-- Number of interrupt assertions in an event sequence. -/
def allAsserts : List Event → Nat
  | [] => 0
  | Event.irq _ :: t => 1 + allAsserts t
  | _ :: t => allAsserts t

/-- Number of Worker steps in an event sequence. -/
def workerSteps : List Event → Nat
  | [] => 0
  | Event.worker _ :: t => 1 + workerSteps t
  | _ :: t => workerSteps t

/-! ## Bit-level facts -/

theorem int_and_ne_zero_iff (a b : Int) :
    int_and a b ≠ 0 ↔ (a % 2 ^ 32).toNat &&& (b % 2 ^ 32).toNat ≠ 0 := by
  have hb : (a % 2 ^ 32).toNat &&& (b % 2 ^ 32).toNat < 2 ^ 32 :=
    Nat.and_lt_two_pow _ (by omega)
  unfold int_and
  simp only
  split <;> omega

theorem toNat_emod_testBit (a : Int) (k : Nat) (hk : k < 32) :
    ((a % 2 ^ 32).toNat).testBit k = a.testBit k := by
  cases a with
  | ofNat n =>
      have h : ((Int.ofNat n) % 2 ^ 32).toNat = n % 2 ^ 32 := by
        simp only [Int.ofNat_eq_coe]; omega
      rw [h, Nat.testBit_mod_two_pow]
      simp [hk, Int.testBit]
  | negSucc n =>
      have h : ((Int.negSucc n) % 2 ^ 32).toNat = 2 ^ 32 - (n % 2 ^ 32 + 1) := by
        have : Int.negSucc n = -((n : Int) + 1) := rfl
        rw [this]; omega
      rw [h, Nat.testBit_two_pow_sub_succ (Nat.mod_lt _ (by norm_num)),
        Nat.testBit_mod_two_pow]
      simp [hk, Int.testBit]

theorem int_and_two_pow_ne_zero_iff (a : Int) (k : Nat) (hk : k < 31) :
    int_and a (2 ^ k : Nat) ≠ 0 ↔ a.testBit k = true := by
  rw [int_and_ne_zero_iff]
  have hlt : (2 : Nat) ^ k < 2 ^ 32 := Nat.pow_lt_pow_right (by norm_num) (by omega)
  have h2 : ∀ m : Nat, m < 2 ^ 32 → ((m : Int) % 2 ^ 32).toNat = m := by
    intro m hm; omega
  rw [h2 _ hlt, Nat.and_two_pow, toNat_emod_testBit a k (by omega)]
  have hpos : 0 < (2 : Nat) ^ k := Nat.pos_pow_of_pos k (by norm_num)
  cases a.testBit k <;> simp

theorem trayButton_iff (reason : Int) :
    int_and reason TRAYBUTTON_MASK ≠ 0 ↔ reason.testBit 5 = true :=
  int_and_two_pow_ne_zero_iff reason 5 (by norm_num)

theorem extsmiBit_iff (reason : Int) :
    int_and reason 0x2 ≠ 0 ↔ reason.testBit 1 = true :=
  int_and_two_pow_ne_zero_iff reason 1 (by norm_num)

/-! ## The Worker pass -/

theorem smcWrites_append (a b : List Op) : smcWrites (a ++ b) = smcWrites a ++ smcWrites b := by
  induction a with
  | nil => rfl
  | cons o t ih => cases o <;> simp [smcWrites, ih]

theorem smcReads_append (a b : List Op) : smcReads (a ++ b) = smcReads a ++ smcReads b := by
  induction a with
  | nil => rfl
  | cons o t ih => cases o <;> simp [smcReads, ih]

theorem extsmi_process_state (env : Env) (s : State) : (extsmi_process env s).2 = s := by
  unfold extsmi_process
  simp only
  split
  · split <;> rfl
  · rfl

theorem extsmi_process_set (env : Env) (s : State)
    (h : (env.xbox_smc_read SMC_CMD_INTERRUPT_REASON).testBit 5 = true) :
    (extsmi_process env s).1 = ejectPassTrace s.Xbox_simulate_drive_locked := by
  have hb := (trayButton_iff (env.xbox_smc_read SMC_CMD_INTERRUPT_REASON)).2 h
  unfold extsmi_process ejectPassTrace
  simp only [if_pos hb]
  split <;> rfl

theorem extsmi_process_clear (env : Env) (s : State)
    (h : (env.xbox_smc_read SMC_CMD_INTERRUPT_REASON).testBit 5 = false) :
    extsmi_process env s = ([Op.smc_read 0x11], s) := by
  have hb : ¬ int_and (env.xbox_smc_read SMC_CMD_INTERRUPT_REASON) TRAYBUTTON_MASK ≠ 0 := by
    rw [trayButton_iff]; simp [h]
  unfold extsmi_process
  simp only [if_neg hb]
  rfl

theorem run_passes_set (ps : List (Env × Int)) (s : State)
    (hps : ∀ p ∈ ps, (p.1.xbox_smc_read SMC_CMD_INTERRUPT_REASON).testBit 5 = true) :
    (run_passes ps s).1 = ps.map (fun p => ejectPassTrace p.2) := by
  induction ps generalizing s with
  | nil => rfl
  | cons p t ih =>
      obtain ⟨env, flag⟩ := p
      have h1 := extsmi_process_set env { s with Xbox_simulate_drive_locked := flag }
        (hps (env, flag) (List.mem_cons_self _ _))
      have h2 := ih (extsmi_process env { s with Xbox_simulate_drive_locked := flag }).2
        (fun q hq => hps q (List.mem_cons_of_mem _ hq))
      simp only [run_passes, List.map_cons, h1, h2]

theorem mem_zip_map {α β : Type} (l : List α) (f : α → β) (q : α × β)
    (hq : q ∈ l.zip (l.map f)) : q.2 = f q.1 := by
  induction l with
  | nil => simp at hq
  | cons a t ih =>
      simp only [List.map_cons, List.zip_cons_cons, List.mem_cons] at hq
      rcases hq with rfl | hq
      · rfl
      · exact ih hq

/-- C1: a Worker pass whose interrupt-reason read returns a cause with bit 5
(0x20) set performs, in this order, the read of command 0x11, the write
(0x0d, 0x04), the write (0x00, 0x0c) and then the eject write (0x0c, 0x00)
exactly when Xbox_simulate_drive_locked is 0 at that pass; so its controller
writes are the first two followed by one eject write or none.  In a burst of
such passes with the flag stored anew before each pass, the trace of every
pass is the one for the flag value of that pass, and a pass whose flag is
nonzero contains no write to the eject command 0x0c. -/
theorem eject_pass_writes (env : Env) (s : State) (ps : List (Env × Int))
    (h : (env.xbox_smc_read SMC_CMD_INTERRUPT_REASON).testBit 5 = true)
    (hps : ∀ p ∈ ps, (p.1.xbox_smc_read SMC_CMD_INTERRUPT_REASON).testBit 5 = true) :
    (extsmi_process env s).1
        = [Op.smc_read 0x11, Op.smc_write 0x0d 0x04, Op.smc_write 0x00 0x0c] ++
          (if s.Xbox_simulate_drive_locked = 0 then [Op.smc_write 0x0c 0x00] else [])
      ∧ smcWrites (extsmi_process env s).1
        = [(0x0d, 0x04), (0x00, 0x0c)] ++
          (if s.Xbox_simulate_drive_locked = 0 then [(0x0c, 0x00)] else [])
      ∧ (run_passes ps s).1 = ps.map (fun p => ejectPassTrace p.2)
      ∧ ∀ q ∈ ps.zip (run_passes ps s).1, q.1.2 ≠ 0 → ∀ v, (0x0c, v) ∉ smcWrites q.2 := by
  have h1 := extsmi_process_set env s h
  have h3 := run_passes_set ps s hps
  refine ⟨h1, ?_, h3, ?_⟩
  · rw [h1, ejectPassTrace]
    split <;> simp [smcWrites]
  · intro q hq hflag v
    rw [h3] at hq
    rw [mem_zip_map ps _ q hq]
    simp [ejectPassTrace, hflag, smcWrites]

theorem eject_pass_writes_witness :
    ((sampleEnv 2 0x20).xbox_smc_read SMC_CMD_INTERRUPT_REASON).testBit 5 = true
      ∧ (extsmi_process (sampleEnv 2 0x20) State.initial).1
        = [Op.smc_read 0x11, Op.smc_write 0x0d 0x04, Op.smc_write 0x00 0x0c,
            Op.smc_write 0x0c 0x00]
      ∧ (run_passes [(sampleEnv 2 0x20, 1), (sampleEnv 2 0x60, 0), (sampleEnv 2 0x21, 1)]
          State.initial).1
        = [ejectPassTrace 1, ejectPassTrace 0, ejectPassTrace 1] :=
  have h := eject_pass_writes (sampleEnv 2 0x20) State.initial
    [(sampleEnv 2 0x20, 1), (sampleEnv 2 0x60, 0), (sampleEnv 2 0x21, 1)]
    (by decide) (by decide)
  ⟨by decide, h.1, h.2.2.1⟩

theorem consecutive_passes_clear (es : List Env) (s : State)
    (hes : ∀ e ∈ es, (e.xbox_smc_read SMC_CMD_INTERRUPT_REASON).testBit 5 = false) :
    consecutive_passes es s = (es.map (fun _ => Op.smc_read 0x11), s) := by
  induction es with
  | nil => rfl
  | cons e t ih =>
      have h1 := extsmi_process_clear e s (hes e (List.mem_cons_self _ _))
      have h2 := ih (fun q hq => hes q (List.mem_cons_of_mem _ hq))
      simp only [consecutive_passes, h1, h2, List.map_cons, List.singleton_append]

theorem smcWrites_reads (n : List Env) :
    smcWrites (n.map (fun _ => Op.smc_read 0x11)) = [] := by
  induction n with
  | nil => rfl
  | cons e t ih => simpa [smcWrites] using ih

/-- C4: a Worker pass whose interrupt-reason read returns a cause with bit 5
(0x20) clear performs the read of command 0x11 and nothing else, and leaves
the state (drive-lock flag included, whatever its value) as it was; any
number of consecutive such passes perform only their reads, issue no
controller write and end in the state before the first pass. -/
theorem idle_pass_no_effect (env : Env) (s : State) (es : List Env)
    (h : (env.xbox_smc_read SMC_CMD_INTERRUPT_REASON).testBit 5 = false)
    (hes : ∀ e ∈ es, (e.xbox_smc_read SMC_CMD_INTERRUPT_REASON).testBit 5 = false) :
    extsmi_process env s = ([Op.smc_read 0x11], s)
      ∧ smcWrites (extsmi_process env s).1 = []
      ∧ (consecutive_passes es s).1 = es.map (fun _ => Op.smc_read 0x11)
      ∧ smcWrites (consecutive_passes es s).1 = []
      ∧ (consecutive_passes es s).2 = s := by
  have h1 := extsmi_process_clear env s h
  have h2 := consecutive_passes_clear es s hes
  refine ⟨h1, ?_, ?_, ?_, ?_⟩
  · rw [h1]; rfl
  · rw [h2]
  · rw [h2]; exact smcWrites_reads es
  · rw [h2]

theorem idle_pass_no_effect_witness :
    ((sampleEnv 2 0xdf).xbox_smc_read SMC_CMD_INTERRUPT_REASON).testBit 5 = false
      ∧ extsmi_process (sampleEnv 2 0xdf) activeState = ([Op.smc_read 0x11], activeState)
      ∧ consecutive_passes [sampleEnv 2 0xdf, sampleEnv 2 0x00] activeState
        = ([Op.smc_read 0x11, Op.smc_read 0x11], activeState) :=
  have h := idle_pass_no_effect (sampleEnv 2 0xdf) activeState
    [sampleEnv 2 0xdf, sampleEnv 2 0x00] (by decide) (by decide)
  ⟨by decide, h.1, Prod.ext h.2.2.1 h.2.2.2.2⟩

/-- C8 as stated fails: when the interrupt-reason read returns the negative
value -1, the pass issues all three controller writes. -/
theorem failed_read_counterexample :
    (sampleEnv 2 (-1)).xbox_smc_read SMC_CMD_INTERRUPT_REASON < 0
      ∧ smcWrites (extsmi_process (sampleEnv 2 (-1)) State.initial).1
        = [(0x0d, 0x04), (0x00, 0x0c), (0x0c, 0x00)]
      ∧ smcWrites (extsmi_process (sampleEnv 2 (-1))
          { State.initial with Xbox_simulate_drive_locked := 1 }).1
        = [(0x0d, 0x04), (0x00, 0x0c)] := by
  decide

theorem testBit_five_of_small_neg (r : Int) (hneg : r < 0) (hlo : -32 ≤ r) :
    r.testBit 5 = true := by
  cases r with
  | ofNat n => simp only [Int.ofNat_eq_coe] at hneg; omega
  | negSucc n =>
      have hn : n < 2 ^ 5 := by
        have : Int.negSucc n = -((n : Int) + 1) := rfl
        rw [this] at hlo; norm_num; omega
      simp [Int.testBit, Nat.testBit_lt_two_pow hn]

/-- C8 amended: a negative value returned by the interrupt-reason read is not
recognised as a failure; the pass tests bit 5 of it (32-bit two's complement)
like that of any cause.  The pass issues no controller write exactly when that
bit is clear, and then it does nothing but the read; when the bit is set, as
for every value from -32 to -1, it performs the pass of a tray-button
cause.  The state is unchanged in every case. -/
theorem failed_read_amended (env : Env) (s : State)
    (hneg : env.xbox_smc_read SMC_CMD_INTERRUPT_REASON < 0) :
    (smcWrites (extsmi_process env s).1 = []
        ↔ (env.xbox_smc_read SMC_CMD_INTERRUPT_REASON).testBit 5 = false)
      ∧ ((env.xbox_smc_read SMC_CMD_INTERRUPT_REASON).testBit 5 = false
          → (extsmi_process env s).1 = [Op.smc_read 0x11])
      ∧ ((env.xbox_smc_read SMC_CMD_INTERRUPT_REASON).testBit 5 = true
          → (extsmi_process env s).1 = ejectPassTrace s.Xbox_simulate_drive_locked)
      ∧ (-32 ≤ env.xbox_smc_read SMC_CMD_INTERRUPT_REASON
          → (extsmi_process env s).1 = ejectPassTrace s.Xbox_simulate_drive_locked)
      ∧ (extsmi_process env s).2 = s := by
  refine ⟨?_, ?_, ?_, ?_, extsmi_process_state env s⟩
  · constructor
    · intro hw
      by_contra hb
      have hb2 : (env.xbox_smc_read SMC_CMD_INTERRUPT_REASON).testBit 5 = true := by
        simpa using hb
      rw [extsmi_process_set env s hb2, ejectPassTrace] at hw
      simp [smcWrites] at hw
    · intro hb
      rw [extsmi_process_clear env s hb]; rfl
  · intro hb
    rw [extsmi_process_clear env s hb]
  · intro hb
    exact extsmi_process_set env s hb
  · intro hlo
    exact extsmi_process_set env s (testBit_five_of_small_neg _ hneg hlo)

theorem failed_read_amended_witness :
    (sampleEnv 2 (-110)).xbox_smc_read SMC_CMD_INTERRUPT_REASON < 0
      ∧ smcWrites (extsmi_process (sampleEnv 2 (-110)) State.initial).1 = []
      ∧ (extsmi_process (sampleEnv 2 (-5)) State.initial).1 = ejectPassTrace 0 :=
  ⟨by decide,
    (failed_read_amended (sampleEnv 2 (-110)) State.initial (by decide)).1.2 (by decide),
    (failed_read_amended (sampleEnv 2 (-5)) State.initial (by decide)).2.2.2.1 (by decide)⟩

/-! ## The interrupt handler -/

theorem extsmi_interrupt_eq (env : Env) (s : State) :
    extsmi_interrupt env s
      = (irqreturn_t.IRQ_HANDLED, [Op.inw 0x8020, Op.outw (inw env 0x8020) 0x8020],
          if (inw env 0x8020).testBit 1 = true then { s with extsmi_sem_locked := false }
          else s) := by
  have hlt : inw env 0x8020 < 2 ^ 16 := Nat.mod_lt _ (by norm_num)
  have hout : outw ((inw env 0x8020 : Nat) : Int) 0x8020 = Op.outw (inw env 0x8020) 0x8020 := by
    unfold outw
    have : (((inw env 0x8020 : Nat) : Int) % 2 ^ 16).toNat = inw env 0x8020 := by omega
    rw [this]
  have hbit : (int_and ((inw env 0x8020 : Nat) : Int) 0x2 ≠ 0)
      ↔ (inw env 0x8020).testBit 1 = true := by
    rw [extsmiBit_iff]; rfl
  unfold extsmi_interrupt mutex_unlock
  simp only [hout]
  by_cases hb : (inw env 0x8020).testBit 1 = true
  · rw [if_pos (hbit.2 hb), if_pos hb]
  · rw [if_neg (fun h => hb (hbit.1 h)), if_neg hb]

/-- C2: when the handler reads the 16-bit value v from the GPE status
register at port 0x8020, it performs that read and then the write of v to
port 0x8020 and no other operation, so its only port write is (v, 0x8020);
it returns IRQ_HANDLED whatever v is; and the state afterwards is the state
before with the mutex unlocked when bit 1 (0x0002) of v is set, and the
state before, untouched, when that bit is clear. -/
theorem extsmi_interrupt_contract (env : Env) (s : State) (v : Nat)
    (hv : v < 2 ^ 16) (hread : env.port_in 0x8020 = v) :
    (extsmi_interrupt env s).1 = irqreturn_t.IRQ_HANDLED
      ∧ (extsmi_interrupt env s).2.1 = [Op.inw 0x8020, Op.outw v 0x8020]
      ∧ portWrites (extsmi_interrupt env s).2.1 = [(v, 0x8020)]
      ∧ (extsmi_interrupt env s).2.2
        = (if v.testBit 1 = true then { s with extsmi_sem_locked := false } else s)
      ∧ ((extsmi_interrupt env s).2.2.extsmi_sem_locked = false
          ↔ (v.testBit 1 = true ∨ s.extsmi_sem_locked = false)) := by
  have hin : inw env 0x8020 = v := by
    unfold inw; rw [hread]; exact Nat.mod_eq_of_lt hv
  have hout : outw ((v : Nat) : Int) 0x8020 = Op.outw v 0x8020 := by
    unfold outw
    have : (((v : Nat) : Int) % 2 ^ 16).toNat = v := by omega
    rw [this]
  have hbit : (int_and ((v : Nat) : Int) 0x2 ≠ 0) ↔ v.testBit 1 = true := by
    rw [extsmiBit_iff]; rfl
  unfold extsmi_interrupt mutex_unlock
  simp only [hin, hout]
  by_cases hb : v.testBit 1 = true
  · simp [if_pos (hbit.2 hb), hb, portWrites]
  · have hb2 : ¬ int_and ((v : Nat) : Int) 0x2 ≠ 0 := fun h => hb (hbit.1 h)
    simp [if_neg hb2, hb, portWrites]

theorem extsmi_interrupt_contract_witness :
    (0xfffd : Nat) < 2 ^ 16
      ∧ extsmi_interrupt (sampleEnv 0xfffd 0) activeState
        = (irqreturn_t.IRQ_HANDLED, [Op.inw 0x8020, Op.outw 0xfffd 0x8020], activeState)
      ∧ (extsmi_interrupt (sampleEnv 0x0002 0) activeState).2.2
        = { activeState with extsmi_sem_locked := false } :=
  have h := extsmi_interrupt_contract (sampleEnv 0xfffd 0) activeState 0xfffd (by decide) rfl
  have h2 := extsmi_interrupt_contract (sampleEnv 0x0002 0) activeState 0x0002 (by decide) rfl
  ⟨by decide, Prod.ext h.1 (Prod.ext h.2.1 h.2.2.2.1), h2.2.2.2.1⟩

/-! ## Setup and teardown -/

theorem mask_testBit (i : Nat) :
    (0xf8c7 : Nat).testBit i
      = (decide (i < 16) && !decide (i = 3 ∨ i = 4 ∨ i = 5 ∨ i = 8 ∨ i = 9 ∨ i = 10)) := by
  by_cases hi : i < 16
  · interval_cases i <;> decide
  · have hm : (0xf8c7 : Nat).testBit i = false :=
      Nat.testBit_lt_two_pow (lt_of_lt_of_le (by norm_num : (0xf8c7 : Nat) < 2 ^ 16)
        (Nat.pow_le_pow_right (by norm_num) (by omega)))
    rw [hm]
    simp [hi]

theorem and_mask_testBit (old i : Nat) (hold : old < 2 ^ 16) :
    (old &&& 0xf8c7).testBit i
      = (old.testBit i && !decide (i = 3 ∨ i = 4 ∨ i = 5 ∨ i = 8 ∨ i = 9 ∨ i = 10)) := by
  rw [Nat.testBit_land, mask_testBit]
  by_cases hi : i < 16
  · simp [hi]
  · have ho : old.testBit i = false :=
      Nat.testBit_lt_two_pow (lt_of_lt_of_le hold
        (Nat.pow_le_pow_right (by norm_num) (by omega)))
    simp [ho]

theorem int_and_of_nat (a b : Nat) (ha : a < 2 ^ 16) (hb : b < 2 ^ 16) :
    int_and (a : Int) (b : Int) = ((a &&& b : Nat) : Int) := by
  have h1 : ((a : Int) % 2 ^ 32).toNat = a := by omega
  have h2 : ((b : Int) % 2 ^ 32).toNat = b := by omega
  have h3 : a &&& b < 2 ^ 16 := Nat.and_lt_two_pow _ hb
  unfold int_and
  simp only [h1, h2]
  rw [if_pos (by omega)]

theorem extsmi_init_ok (env : Env) (s : State) (old : Nat)
    (hx : env.machine_is_xbox ≠ 0) (hk : env.IS_ERR env.kthread_run = false)
    (hold : old < 2 ^ 16) (hread : env.port_in 0x80e2 = old) :
    extsmi_init env s
      = (if env.request_irq ≠ 0 then
          (env.request_irq,
            [Op.kthread_run,
              Op.printk KernLevel.KERN_INFO
                "xbox-extsmi: Original Xbox EXTSMI# eject IRQ handler\n" none,
              Op.inw 0x80e2, Op.outw (old &&& 0xf8c7) 0x80e2, Op.outw 0 0x80ac,
              Op.outb 0 0x8025, Op.outw 0x0002 0x8022, Op.outw 0 0x8002, Op.outb 1 0x8004,
              Op.smc_write 0x19 0x01, Op.request_irq 12 IrqFlags.IRQF_SHARED 1,
              Op.printk KernLevel.KERN_ERR
                "xbox-extsmi: failed to register eject IRQ handler. (%i)\n"
                (some env.request_irq),
              Op.kthread_stop env.kthread_run],
            { s with extsmi_task := 0, worker := WorkerPc.process, should_stop := true })
        else
          (env.request_irq,
            [Op.kthread_run,
              Op.printk KernLevel.KERN_INFO
                "xbox-extsmi: Original Xbox EXTSMI# eject IRQ handler\n" none,
              Op.inw 0x80e2, Op.outw (old &&& 0xf8c7) 0x80e2, Op.outw 0 0x80ac,
              Op.outb 0 0x8025, Op.outw 0x0002 0x8022, Op.outw 0 0x8002, Op.outb 1 0x8004,
              Op.smc_write 0x19 0x01, Op.request_irq 12 IrqFlags.IRQF_SHARED 1],
            { s with extsmi_task := env.kthread_run, worker := WorkerPc.process })) := by
  have hin : inw env 0x80e2 = old := by
    unfold inw; rw [hread]; exact Nat.mod_eq_of_lt hold
  have hand : int_and ((old : Nat) : Int) 0xf8c7 = ((old &&& 0xf8c7 : Nat) : Int) :=
    int_and_of_nat old 0xf8c7 hold (by norm_num)
  have hlt : old &&& 0xf8c7 < 2 ^ 16 := Nat.and_lt_two_pow _ (by norm_num)
  have hout : outw (((old &&& 0xf8c7 : Nat) : Int)) 0x80e2 = Op.outw (old &&& 0xf8c7) 0x80e2 := by
    unfold outw
    have : ((((old &&& 0xf8c7 : Nat)) : Int) % 2 ^ 16).toNat = old &&& 0xf8c7 := by omega
    rw [this]
  unfold extsmi_init
  simp only [if_neg hx, hk, hin, hand, hout, Bool.false_eq_true, if_false]
  split <;> rfl

/-- C3: on an Xbox where kthread_run and request_irq both succeed,
extsmi_init returns 0 and performs exactly, in order: kthread_run (start the
Worker); the log line; the read of port 0x80e2 giving old; the 16-bit write
of old & 0xf8c7 to 0x80e2; 16-bit 0 to 0x80ac; 8-bit 0 to 0x8025; 16-bit
0x0002 to 0x8022 (never read before); 16-bit 0 to 0x8002; 8-bit 1 to 0x8004;
the controller write (0x19, 0x01); request_irq on line 12 with IRQF_SHARED.
Leaving out the read and the log line, the Worker start comes first and is
followed by the six port writes, the controller write and the IRQ
registration.  The only port read is that of 0x80e2.  For every 16-bit old
the value written to 0x80e2 has bits 3, 4, 5, 8, 9, 10 clear and every other
bit equal to that bit of old. -/
theorem extsmi_init_success_sequence (env : Env) (s : State) (old : Nat)
    (hx : env.machine_is_xbox ≠ 0) (hk : env.IS_ERR env.kthread_run = false)
    (hr : env.request_irq = 0) (hold : old < 2 ^ 16) (hread : env.port_in 0x80e2 = old) :
    extsmi_init env s
        = (0,
            [Op.kthread_run,
              Op.printk KernLevel.KERN_INFO
                "xbox-extsmi: Original Xbox EXTSMI# eject IRQ handler\n" none,
              Op.inw 0x80e2, Op.outw (old &&& 0xf8c7) 0x80e2, Op.outw 0 0x80ac,
              Op.outb 0 0x8025, Op.outw 0x0002 0x8022, Op.outw 0 0x8002, Op.outb 1 0x8004,
              Op.smc_write 0x19 0x01, Op.request_irq 12 IrqFlags.IRQF_SHARED 1],
            { s with extsmi_task := env.kthread_run, worker := WorkerPc.process })
      ∧ actions (extsmi_init env s).2.1
        = [Op.kthread_run, Op.outw (old &&& 0xf8c7) 0x80e2, Op.outw 0 0x80ac,
            Op.outb 0 0x8025, Op.outw 0x0002 0x8022, Op.outw 0 0x8002, Op.outb 1 0x8004,
            Op.smc_write 0x19 0x01, Op.request_irq 12 IrqFlags.IRQF_SHARED 1]
      ∧ portReads (extsmi_init env s).2.1 = [0x80e2]
      ∧ (∀ i, (old &&& 0xf8c7).testBit i
          = (old.testBit i && !decide (i = 3 ∨ i = 4 ∨ i = 5 ∨ i = 8 ∨ i = 9 ∨ i = 10)))
      ∧ old &&& 0xf8c7 < 2 ^ 16 := by
  have h := extsmi_init_ok env s old hx hk hold hread
  rw [hr] at h
  simp only [ne_eq, not_true_eq_false, if_false] at h
  refine ⟨h, ?_, ?_, fun i => and_mask_testBit old i hold,
    Nat.and_lt_two_pow _ (by norm_num)⟩
  · rw [h]; rfl
  · rw [h]; rfl

theorem extsmi_init_success_sequence_witness :
    (sampleEnv 0xffff 0).machine_is_xbox ≠ 0
      ∧ (extsmi_init (sampleEnv 0xffff 0) State.initial).1 = 0
      ∧ actions (extsmi_init (sampleEnv 0xffff 0) State.initial).2.1
        = [Op.kthread_run, Op.outw 0xf8c7 0x80e2, Op.outw 0 0x80ac,
            Op.outb 0 0x8025, Op.outw 0x0002 0x8022, Op.outw 0 0x8002, Op.outb 1 0x8004,
            Op.smc_write 0x19 0x01, Op.request_irq 12 IrqFlags.IRQF_SHARED 1] :=
  have h := extsmi_init_success_sequence (sampleEnv 0xffff 0) State.initial 0xffff
    (by decide) (by decide) rfl (by decide) rfl
  ⟨by decide, congrArg Prod.fst h.1, h.2.1⟩

/-- C9: on an Xbox where kthread_run succeeds and request_irq fails with a
nonzero code e, extsmi_init returns e; after the request_irq call it performs
only the error log line and kthread_stop on the task kthread_run returned, so
no port or controller write follows the failure and the writes of the whole
call are those made before it; extsmi_task is NULL afterwards, and
extsmi_exit on the resulting state performs no operation and changes
nothing.  The same holds for extsmi_exit at module load and after an
extsmi_init whose kthread_run failed. -/
theorem extsmi_init_irq_failure (env env2 : Env) (s : State) (old : Nat) (e : Int)
    (hx : env.machine_is_xbox ≠ 0) (hk : env.IS_ERR env.kthread_run = false)
    (he : env.request_irq = e) (hne : e ≠ 0)
    (hold : old < 2 ^ 16) (hread : env.port_in 0x80e2 = old)
    (hx2 : env2.machine_is_xbox ≠ 0) (hk2 : env2.IS_ERR env2.kthread_run = true) :
    (extsmi_init env s).1 = e
      ∧ (extsmi_init env s).2.1
        = [Op.kthread_run,
            Op.printk KernLevel.KERN_INFO
              "xbox-extsmi: Original Xbox EXTSMI# eject IRQ handler\n" none,
            Op.inw 0x80e2, Op.outw (old &&& 0xf8c7) 0x80e2, Op.outw 0 0x80ac,
            Op.outb 0 0x8025, Op.outw 0x0002 0x8022, Op.outw 0 0x8002, Op.outb 1 0x8004,
            Op.smc_write 0x19 0x01, Op.request_irq 12 IrqFlags.IRQF_SHARED 1] ++
          [Op.printk KernLevel.KERN_ERR
              "xbox-extsmi: failed to register eject IRQ handler. (%i)\n" (some e),
            Op.kthread_stop env.kthread_run]
      ∧ portWrites (extsmi_init env s).2.1
        = [(old &&& 0xf8c7, 0x80e2), (0, 0x80ac), (0, 0x8025), (0x0002, 0x8022), (0, 0x8002),
            (1, 0x8004)]
      ∧ smcWrites (extsmi_init env s).2.1 = [(0x19, 0x01)]
      ∧ (extsmi_init env s).2.2.extsmi_task = 0
      ∧ extsmi_exit (extsmi_init env s).2.2 = ([], (extsmi_init env s).2.2)
      ∧ extsmi_exit State.initial = ([], State.initial)
      ∧ extsmi_init env2 s
        = (-1, [Op.kthread_run], { s with extsmi_task := 0, worker := WorkerPc.not_started })
      ∧ extsmi_exit (extsmi_init env2 s).2.2 = ([], (extsmi_init env2 s).2.2) := by
  have h := extsmi_init_ok env s old hx hk hold hread
  rw [he] at h
  simp only [ne_eq, hne, not_false_eq_true, if_true] at h
  have h2 : extsmi_init env2 s
      = (-1, [Op.kthread_run], { s with extsmi_task := 0, worker := WorkerPc.not_started }) := by
    unfold extsmi_init
    simp only [if_neg hx2, hk2, if_true]
  refine ⟨?_, ?_, ?_, ?_, ?_, ?_, rfl, h2, ?_⟩
  · rw [h]
  · rw [h]; rfl
  · rw [h]; rfl
  · rw [h]; rfl
  · rw [h]
  · rw [h]; rfl
  · rw [h2]; rfl

theorem extsmi_init_irq_failure_witness :
    (irqFailEnv (-16)).request_irq ≠ 0
      ∧ (extsmi_init (irqFailEnv (-16)) State.initial).1 = -16
      ∧ (extsmi_init (irqFailEnv (-16)) State.initial).2.2.extsmi_task = 0
      ∧ extsmi_exit (extsmi_init (irqFailEnv (-16)) State.initial).2.2
        = ([], (extsmi_init (irqFailEnv (-16)) State.initial).2.2) :=
  have h := extsmi_init_irq_failure (irqFailEnv (-16))
    { sampleEnv 0 0 with kthread_run := 2 ^ 32 - 12 } State.initial 0 (-16)
    (by decide) (by decide) rfl (by decide) (by decide) rfl (by decide) (by decide)
  ⟨by decide, h.1, h.2.2.2.2.1, h.2.2.2.2.2.1⟩

/-- C10 as stated fails: on a machine that is not an Xbox extsmi_init
returns -1, a failure code for a module's init function, not 0. -/
theorem extsmi_init_not_xbox_counterexample :
    notXboxEnv.machine_is_xbox = 0
      ∧ (extsmi_init notXboxEnv State.initial).1 = -1
      ∧ (extsmi_init notXboxEnv State.initial).1 ≠ 0
      ∧ (extsmi_init notXboxEnv State.initial).1 < 0 := by
  decide

/-- C10 amended: when machine_is_xbox() returns 0, extsmi_init performs no
operation at all (no Worker start, no port read or write, no controller
write, no request_irq), leaves the state as it was, and returns -1, the
failure result it was initialised with. -/
theorem extsmi_init_not_xbox (env : Env) (s : State) (hx : env.machine_is_xbox = 0) :
    extsmi_init env s = (-1, [], s) := by
  unfold extsmi_init
  simp only [if_pos hx]

theorem extsmi_init_not_xbox_witness :
    notXboxEnv.machine_is_xbox = 0
      ∧ extsmi_init notXboxEnv State.initial = (-1, [], State.initial) :=
  ⟨rfl, extsmi_init_not_xbox notXboxEnv State.initial rfl⟩

/-- C7 as stated fails: on the active subsystem extsmi_exit calls free_irq
first and kthread_stop second, so the Worker stop does not precede the
release of the IRQ, and it performs no port or controller write, so nothing
disables the hardware interrupt source. -/
theorem extsmi_exit_order_counterexample :
    activeState.extsmi_task ≠ 0
      ∧ (extsmi_exit activeState).1 = [Op.free_irq 12 1, Op.kthread_stop 0xc1000000]
      ∧ ¬ ((extsmi_exit activeState).1.indexOf (Op.kthread_stop 0xc1000000)
            < (extsmi_exit activeState).1.indexOf (Op.free_irq 12 1))
      ∧ portWrites (extsmi_exit activeState).1 = []
      ∧ smcWrites (extsmi_exit activeState).1 = [] := by
  decide

/-- C7 amended: teardown of an active subsystem (extsmi_task not NULL)
performs exactly two operations, in this order: free_irq on line 12 with
device id 1, then kthread_stop on the Worker task; it then sets extsmi_task
to NULL.  It performs no port write and no controller write. -/
theorem extsmi_exit_order (s : State) (ht : s.extsmi_task ≠ 0) :
    extsmi_exit s
        = ([Op.free_irq 12 1, Op.kthread_stop s.extsmi_task],
            { s with extsmi_task := 0, should_stop := true })
      ∧ portWrites (extsmi_exit s).1 = []
      ∧ smcWrites (extsmi_exit s).1 = [] := by
  have h : extsmi_exit s
      = ([Op.free_irq 12 1, Op.kthread_stop s.extsmi_task],
          { s with extsmi_task := 0, should_stop := true }) := by
    unfold extsmi_exit
    simp only [if_neg ht]
    rfl
  refine ⟨h, ?_, ?_⟩
  · rw [h]; rfl
  · rw [h]; rfl

theorem extsmi_exit_order_witness :
    activeState.extsmi_task ≠ 0
      ∧ extsmi_exit activeState
        = ([Op.free_irq 12 1, Op.kthread_stop 0xc1000000],
            { activeState with extsmi_task := 0, should_stop := true }) :=
  ⟨by decide, (extsmi_exit_order activeState (by decide)).1⟩

/-! ## Interleavings of interrupts and Worker steps -/

theorem Sys.run_cons (y : Sys) (ev : Event) (evs : List Event) :
    y.run (ev :: evs) = (y.step ev).run evs := rfl

theorem Sys.run_append (y : Sys) (a b : List Event) :
    y.run (a ++ b) = (y.run a).run b := by
  unfold Sys.run
  exact List.foldl_append _ _ _ _

theorem Sys.step_irq (y : Sys) (env : Env) :
    y.step (Event.irq env)
      = { y with
          state := if (inw env 0x8020).testBit 1 = true
            then { y.state with extsmi_sem_locked := false } else y.state,
          trace := y.trace ++ [Op.inw 0x8020, Op.outw (inw env 0x8020) 0x8020],
          asserts := y.asserts + 1 } := by
  simp only [Sys.step, extsmi_interrupt_eq]

theorem Sys.step_worker_process (y : Sys) (env : Env) (hpc : y.state.worker = WorkerPc.process) :
    y.step (Event.worker env)
      = { y with
          state := { y.state with worker := WorkerPc.lock },
          trace := y.trace ++ (extsmi_process env y.state).1,
          passes := y.passes + 1 } := by
  simp only [Sys.step, extsmi_thread_step, hpc, extsmi_process_state, if_true]

theorem Sys.step_worker_lock (y : Sys) (env : Env) (hpc : y.state.worker = WorkerPc.lock) :
    y.step (Event.worker env)
      = (if y.state.extsmi_sem_locked = true then y
          else { y with
            state := { y.state with extsmi_sem_locked := true, worker := WorkerPc.check },
            trace := y.trace ++ [] }) := by
  by_cases hl : y.state.extsmi_sem_locked = true
  · simp [Sys.step, extsmi_thread_step, mutex_lock_interruptible, hpc, hl]
  · simp [Sys.step, extsmi_thread_step, mutex_lock_interruptible, hpc, hl]

theorem Sys.step_worker_check (y : Sys) (env : Env) (hpc : y.state.worker = WorkerPc.check) :
    y.step (Event.worker env)
      = { y with
          state := if y.state.should_stop = true
            then { y.state with extsmi_task := 0, worker := WorkerPc.exited }
            else { y.state with worker := WorkerPc.process },
          trace := y.trace ++ [] } := by
  by_cases hs : y.state.should_stop = true
  · simp [Sys.step, extsmi_thread_step, kthread_should_stop, hpc, hs]
  · simp [Sys.step, extsmi_thread_step, kthread_should_stop, hpc, hs]

theorem Sys.step_worker_idle (y : Sys) (env : Env)
    (hpc : y.state.worker = WorkerPc.not_started ∨ y.state.worker = WorkerPc.exited) :
    y.step (Event.worker env) = y := by
  rcases hpc with hpc | hpc <;> simp [Sys.step, extsmi_thread_step, hpc]

theorem Sys.run_blocked (y : Sys) (ws : List Env)
    (hpc : y.state.worker = WorkerPc.lock) (hl : y.state.extsmi_sem_locked = true) :
    y.run (ws.map Event.worker) = y := by
  induction ws with
  | nil => rfl
  | cons w t ih =>
      rw [List.map_cons, Sys.run_cons, Sys.step_worker_lock y w hpc, if_pos hl]
      exact ih

theorem extsmi_process_trace_congr (env : Env) (s t : State)
    (h : s.Xbox_simulate_drive_locked = t.Xbox_simulate_drive_locked) :
    (extsmi_process env s).1 = (extsmi_process env t).1 := by
  unfold extsmi_process
  simp only [h]
  split
  · split <;> rfl
  · rfl

theorem smcReads_process (env : Env) (s : State) :
    smcReads (extsmi_process env s).1 = [SMC_CMD_INTERRUPT_REASON] := by
  unfold extsmi_process
  simp only
  split
  · split <;> rfl
  · rfl

/-- C5: let the Worker be blocked in mutex_lock_interruptible on the locked
mutex, with no stop requested.  The Worker cannot step.  Two handler
invocations that both read a status with bit 0x0002 set leave the whole
state, the mutex included, exactly as one such invocation does: unlocked.
However many steps the Worker is then given (three or more), it makes
exactly one pass with exactly one interrupt-reason read, its controller
writes are those of that pass, namely (0x0d, 0x04), (0x00, 0x0c) and, the
flag being 0, (0x0c, 0x00) when the cause has bit 5 set, and it ends blocked
again in the state it started from. -/
theorem wake_coalescing (s : State) (e1 e2 w1 w2 w3 : Env) (ws : List Env)
    (hpc : s.worker = WorkerPc.lock) (hl : s.extsmi_sem_locked = true)
    (hs : s.should_stop = false)
    (h1 : (inw e1 0x8020).testBit 1 = true) (h2 : (inw e2 0x8020).testBit 1 = true) :
    extsmi_thread_step w1 s = none
      ∧ (extsmi_interrupt e2 (extsmi_interrupt e1 s).2.2).2.2 = (extsmi_interrupt e1 s).2.2
      ∧ (extsmi_interrupt e1 s).2.2 = { s with extsmi_sem_locked := false }
      ∧ (Sys.start s).run
          ([Event.irq e1, Event.irq e2, Event.worker w1, Event.worker w2, Event.worker w3]
            ++ ws.map Event.worker)
        = { state := s,
            trace := [Op.inw 0x8020, Op.outw (inw e1 0x8020) 0x8020,
                Op.inw 0x8020, Op.outw (inw e2 0x8020) 0x8020] ++ (extsmi_process w3 s).1,
            passes := 1,
            asserts := 2 }
      ∧ smcReads ((Sys.start s).run
          ([Event.irq e1, Event.irq e2, Event.worker w1, Event.worker w2, Event.worker w3]
            ++ ws.map Event.worker)).trace = [0x11]
      ∧ ((w3.xbox_smc_read SMC_CMD_INTERRUPT_REASON).testBit 5 = true →
          smcWrites ((Sys.start s).run
            ([Event.irq e1, Event.irq e2, Event.worker w1, Event.worker w2, Event.worker w3]
              ++ ws.map Event.worker)).trace
          = [(0x0d, 0x04), (0x00, 0x0c)] ++
            (if s.Xbox_simulate_drive_locked = 0 then [(0x0c, 0x00)] else [])) := by
  have hblocked : extsmi_thread_step w1 s = none := by
    simp [extsmi_thread_step, mutex_lock_interruptible, hpc, hl]
  have hi1 : (extsmi_interrupt e1 s).2.2 = { s with extsmi_sem_locked := false } := by
    rw [extsmi_interrupt_eq, if_pos h1]
  have hi2 : (extsmi_interrupt e2 (extsmi_interrupt e1 s).2.2).2.2
      = (extsmi_interrupt e1 s).2.2 := by
    rw [hi1, extsmi_interrupt_eq, if_pos h2]
  have hrun : (Sys.start s).run
        ([Event.irq e1, Event.irq e2, Event.worker w1, Event.worker w2, Event.worker w3]
          ++ ws.map Event.worker)
      = { state := s,
          trace := [Op.inw 0x8020, Op.outw (inw e1 0x8020) 0x8020,
              Op.inw 0x8020, Op.outw (inw e2 0x8020) 0x8020] ++ (extsmi_process w3 s).1,
          passes := 1,
          asserts := 2 } := by
    have hpre : (Sys.start s).run
          [Event.irq e1, Event.irq e2, Event.worker w1, Event.worker w2, Event.worker w3]
        = { state := s,
            trace := [Op.inw 0x8020, Op.outw (inw e1 0x8020) 0x8020,
                Op.inw 0x8020, Op.outw (inw e2 0x8020) 0x8020] ++ (extsmi_process w3 s).1,
            passes := 1,
            asserts := 2 } := by
      rw [Sys.run_cons, Sys.step_irq, Sys.run_cons, Sys.step_irq,
        Sys.run_cons, Sys.step_worker_lock _ _ (by simp [h1, h2, Sys.start, hpc]),
        Sys.run_cons, Sys.step_worker_check _ _ (by simp [h1, h2, Sys.start]),
        Sys.run_cons, Sys.step_worker_process _ _ (by simp [h1, h2, Sys.start, hs])]
      obtain ⟨l, t, f, w, st⟩ := s
      simp only at hpc hl hs
      subst hpc hl hs
      simp only [h1, h2, if_true, Sys.start, Bool.false_eq_true, if_false, List.nil_append,
        List.append_nil, Sys.run, List.foldl_nil, Sys.mk.injEq, true_and, and_true,
        List.append_assoc, List.cons_append, List.cons.injEq]
      exact extsmi_process_trace_congr w3 _ _ rfl
    rw [Sys.run_append, hpre]
    exact Sys.run_blocked _ ws hpc hl
  refine ⟨hblocked, hi2, hi1, hrun, ?_, ?_⟩
  · rw [hrun]
    simp only [smcReads_append, smcReads_process]
    rfl
  · intro h5
    rw [hrun]
    simp only [smcWrites_append, extsmi_process_set w3 s h5, ejectPassTrace]
    split <;> rfl

theorem wake_coalescing_witness :
    activeState.worker = WorkerPc.lock
      ∧ activeState.extsmi_sem_locked = true
      ∧ (inw (sampleEnv 0x0002 0) 0x8020).testBit 1 = true
      ∧ ((Sys.start activeState).run
          ([Event.irq (sampleEnv 0x0002 0), Event.irq (sampleEnv 0x0003 0),
              Event.worker (sampleEnv 0 0), Event.worker (sampleEnv 0 0),
              Event.worker (sampleEnv 0 0x20)]
            ++ [sampleEnv 0 0x20, sampleEnv 0 0x20].map Event.worker)).passes = 1
      ∧ smcWrites ((Sys.start activeState).run
          ([Event.irq (sampleEnv 0x0002 0), Event.irq (sampleEnv 0x0003 0),
              Event.worker (sampleEnv 0 0), Event.worker (sampleEnv 0 0),
              Event.worker (sampleEnv 0 0x20)]
            ++ [sampleEnv 0 0x20, sampleEnv 0 0x20].map Event.worker)).trace
        = [(0x0d, 0x04), (0x00, 0x0c), (0x0c, 0x00)] :=
  have h := wake_coalescing activeState (sampleEnv 0x0002 0) (sampleEnv 0x0003 0)
    (sampleEnv 0 0) (sampleEnv 0 0) (sampleEnv 0 0x20) [sampleEnv 0 0x20, sampleEnv 0 0x20]
    rfl rfl rfl (by decide) (by decide)
  ⟨rfl, rfl, by decide, congrArg Sys.passes h.2.2.2.1, h.2.2.2.2.2 (by decide)⟩

theorem Sys.step_credit (y : Sys) (ev : Event) :
    (y.step ev).credit ≤ y.credit + wakingAsserts [ev] := by
  cases ev with
  | irq env =>
      rw [Sys.step_irq]
      by_cases hb : (inw env 0x8020).testBit 1 = true
      · simp only [Sys.credit, wakingAsserts, hb, if_true]
        split <;> simp
      · simp only [Sys.credit, wakingAsserts, hb, if_false]
        simp
  | worker env =>
      simp only [wakingAsserts, Nat.add_zero]
      cases hpc : y.state.worker with
      | not_started => rw [Sys.step_worker_idle y env (Or.inl hpc)]
      | exited => rw [Sys.step_worker_idle y env (Or.inr hpc)]
      | process =>
          rw [Sys.step_worker_process y env hpc]
          simp only [Sys.credit, hpc]
          simp
      | lock =>
          rw [Sys.step_worker_lock y env hpc]
          by_cases hl : y.state.extsmi_sem_locked = true
          · rw [if_pos hl]
          · rw [if_neg hl]
            simp only [Sys.credit, hpc, hl]
            simp
      | check =>
          rw [Sys.step_worker_check y env hpc]
          by_cases hs : y.state.should_stop = true
          · simp only [Sys.credit, hpc, hs, if_true]
            simp
          · simp only [Sys.credit, hpc, hs, if_false]
            simp
  | set_flag v =>
      simp [Sys.step, Sys.credit, wakingAsserts]

theorem wakingAsserts_cons (ev : Event) (evs : List Event) :
    wakingAsserts (ev :: evs) = wakingAsserts [ev] + wakingAsserts evs := by
  cases ev <;> simp [wakingAsserts]

theorem Sys.run_credit (y : Sys) (evs : List Event) :
    (y.run evs).credit ≤ y.credit + wakingAsserts evs := by
  induction evs generalizing y with
  | nil => simp [Sys.run, wakingAsserts]
  | cons ev t ih =>
      rw [Sys.run_cons, wakingAsserts_cons]
      have h1 := ih (y.step ev)
      have h2 := Sys.step_credit y ev
      omega

theorem Sys.passes_le_credit (y : Sys) : y.passes ≤ y.credit := by
  unfold Sys.credit
  omega

theorem wakingAsserts_le (evs : List Event) : wakingAsserts evs ≤ allAsserts evs := by
  induction evs with
  | nil => simp [wakingAsserts, allAsserts]
  | cons ev t ih =>
      cases ev with
      | irq env =>
          simp only [wakingAsserts, allAsserts]
          split <;> omega
      | worker env => simpa [wakingAsserts, allAsserts] using ih
      | set_flag v => simpa [wakingAsserts, allAsserts] using ih

theorem Sys.step_asserts (y : Sys) (ev : Event) :
    (y.step ev).asserts = y.asserts + allAsserts [ev] := by
  cases ev with
  | irq env => rw [Sys.step_irq]; simp [allAsserts]
  | worker env =>
      simp only [Sys.step, allAsserts]
      split <;> rfl
  | set_flag v => simp [Sys.step, allAsserts]

theorem allAsserts_cons (ev : Event) (evs : List Event) :
    allAsserts (ev :: evs) = allAsserts [ev] + allAsserts evs := by
  cases ev <;> simp [allAsserts]

theorem Sys.run_asserts (y : Sys) (evs : List Event) :
    (y.run evs).asserts = y.asserts + allAsserts evs := by
  induction evs generalizing y with
  | nil => simp [Sys.run, allAsserts]
  | cons ev t ih =>
      rw [Sys.run_cons, allAsserts_cons, ih, Sys.step_asserts]
      omega

theorem Sys.step_passes_mono (y : Sys) (ev : Event) : y.passes ≤ (y.step ev).passes := by
  cases ev with
  | irq env => rw [Sys.step_irq]
  | worker env =>
      simp only [Sys.step]
      split
      · exact Nat.le_refl _
      · simp only
        split <;> omega
  | set_flag v => simp [Sys.step]

theorem Sys.run_passes_mono (y : Sys) (evs : List Event) : y.passes ≤ (y.run evs).passes := by
  induction evs generalizing y with
  | nil => exact Nat.le_refl _
  | cons ev t ih =>
      rw [Sys.run_cons]
      exact Nat.le_trans (Sys.step_passes_mono y ev) (ih _)

theorem Sys.run_first_pass (y : Sys) (evs : List Event)
    (hpc : y.state.worker = WorkerPc.process) (hw : 1 ≤ workerSteps evs) :
    y.passes + 1 ≤ (y.run evs).passes := by
  induction evs generalizing y with
  | nil => simp [workerSteps] at hw
  | cons ev t ih =>
      rw [Sys.run_cons]
      cases ev with
      | irq env =>
          have h := ih (y.step (Event.irq env))
            (by rw [Sys.step_irq]; simp only; split <;> exact hpc)
            (by simpa [workerSteps] using hw)
          rw [Sys.step_irq] at h ⊢
          exact h
      | worker env =>
          have h := Sys.run_passes_mono (y.step (Event.worker env)) t
          rw [Sys.step_worker_process y env hpc] at h ⊢
          exact h
      | set_flag v =>
          exact ih (y.step (Event.set_flag v)) (by simpa [Sys.step] using hpc)
            (by simpa [workerSteps] using hw)

theorem smcReads_replicate_succ (n : Nat) (t : List Op) (c : Nat)
    (h : smcReads t = List.replicate n c) (u : List Op) (hu : smcReads u = [c]) :
    smcReads (t ++ u) = List.replicate (n + 1) c := by
  rw [smcReads_append, h, hu, List.replicate_succ' ]

theorem Sys.step_reads (y : Sys) (ev : Event)
    (h : smcReads y.trace = List.replicate y.passes SMC_CMD_INTERRUPT_REASON) :
    smcReads (y.step ev).trace = List.replicate (y.step ev).passes SMC_CMD_INTERRUPT_REASON := by
  cases ev with
  | irq env =>
      rw [Sys.step_irq]
      simp only [smcReads_append, h]
      simp [smcReads]
  | worker env =>
      cases hpc : y.state.worker with
      | not_started => rw [Sys.step_worker_idle y env (Or.inl hpc)]; exact h
      | exited => rw [Sys.step_worker_idle y env (Or.inr hpc)]; exact h
      | process =>
          rw [Sys.step_worker_process y env hpc]
          exact smcReads_replicate_succ _ _ _ h _ (smcReads_process env y.state)
      | lock =>
          rw [Sys.step_worker_lock y env hpc]
          split
          · exact h
          · simpa using h
      | check =>
          rw [Sys.step_worker_check y env hpc]
          simpa using h
  | set_flag v => simpa [Sys.step] using h

theorem Sys.run_reads (y : Sys) (evs : List Event)
    (h : smcReads y.trace = List.replicate y.passes SMC_CMD_INTERRUPT_REASON) :
    smcReads (y.run evs).trace = List.replicate (y.run evs).passes SMC_CMD_INTERRUPT_REASON := by
  induction evs generalizing y with
  | nil => exact h
  | cons ev t ih =>
      rw [Sys.run_cons]
      exact ih _ (Sys.step_reads y ev h)

/-- C6 as stated fails: from the state in which a successful extsmi_init
leaves the module, with no interrupt assertion at all, the first Worker step
is already a pass, and four Worker steps make two passes with two
interrupt-reason reads; the number of passes exceeds the number of
assertions, which is zero. -/
theorem passes_bound_counterexample :
    allAsserts [Event.worker (sampleEnv 0 0)] = 0
      ∧ ((Sys.start (extsmi_init (sampleEnv 0 0) State.initial).2.2).run
          [Event.worker (sampleEnv 0 0)]).passes = 1
      ∧ ((Sys.start (extsmi_init (sampleEnv 0 0) State.initial).2.2).run
          [Event.worker (sampleEnv 0 0), Event.worker (sampleEnv 0 0),
            Event.worker (sampleEnv 0 0), Event.worker (sampleEnv 0 0)]).passes = 2
      ∧ smcReads ((Sys.start (extsmi_init (sampleEnv 0 0) State.initial).2.2).run
          [Event.worker (sampleEnv 0 0), Event.worker (sampleEnv 0 0),
            Event.worker (sampleEnv 0 0), Event.worker (sampleEnv 0 0)]).trace = [0x11, 0x11]
      ∧ ¬ (((Sys.start (extsmi_init (sampleEnv 0 0) State.initial).2.2).run
            [Event.worker (sampleEnv 0 0)]).passes
          ≤ allAsserts [Event.worker (sampleEnv 0 0)]) := by
  decide

/-- C6 amended: counting from a state in which the Worker has just been
started (it stands at the top of its do-while loop, as after a successful
extsmi_init), for every finite sequence of interrupt assertions, Worker
steps and stores to the drive-lock flag: the number of Worker passes is at
most one, plus one if the mutex was unlocked at the start (as DEFINE_MUTEX
leaves it), plus the number of assertions whose status value has bit 0x0002
set; hence at most two plus the number of assertions.  It is at least one as
soon as the Worker has taken a step.  Every pass does exactly one
interrupt-reason read and there is no other controller read, so when no
assertion has bit 0x0002 set the Worker makes at most two controller
reads. -/
theorem passes_bound_amended (s : State) (evs : List Event)
    (hpc : s.worker = WorkerPc.process) :
    ((Sys.start s).run evs).passes
        ≤ 1 + (if s.extsmi_sem_locked = true then 0 else 1) + wakingAsserts evs
      ∧ ((Sys.start s).run evs).passes ≤ 2 + allAsserts evs
      ∧ ((Sys.start s).run evs).asserts = allAsserts evs
      ∧ (1 ≤ workerSteps evs → 1 ≤ ((Sys.start s).run evs).passes)
      ∧ smcReads ((Sys.start s).run evs).trace
        = List.replicate ((Sys.start s).run evs).passes 0x11
      ∧ (wakingAsserts evs = 0 → (smcReads ((Sys.start s).run evs).trace).length ≤ 2) := by
  have hcredit := Sys.run_credit (Sys.start s) evs
  have hstart : (Sys.start s).credit = 1 + (if s.extsmi_sem_locked = true then 0 else 1) := by
    simp only [Sys.credit, Sys.start, hpc]
    simp
  have hle := Sys.passes_le_credit ((Sys.start s).run evs)
  have hwa := wakingAsserts_le evs
  have hreads := Sys.run_reads (Sys.start s) evs rfl
  have hbound : ((Sys.start s).run evs).passes
      ≤ 1 + (if s.extsmi_sem_locked = true then 0 else 1) + wakingAsserts evs := by omega
  have hbound2 : ((Sys.start s).run evs).passes ≤ 2 + wakingAsserts evs := by
    split at hbound <;> omega
  refine ⟨hbound, by omega, ?_, ?_, hreads, ?_⟩
  · rw [Sys.run_asserts]; simp [Sys.start]
  · intro hw
    have h := Sys.run_first_pass (Sys.start s) evs hpc hw
    simpa [Sys.start] using h
  · intro h0
    rw [hreads, List.length_replicate]
    omega

theorem passes_bound_amended_witness :
    (extsmi_init (sampleEnv 0 0) State.initial).2.2.worker = WorkerPc.process
      ∧ ((Sys.start (extsmi_init (sampleEnv 0 0) State.initial).2.2).run
          [Event.worker (sampleEnv 0 0), Event.irq (sampleEnv 0x0002 0),
            Event.worker (sampleEnv 0 0)]).passes
        ≤ 2 + allAsserts [Event.worker (sampleEnv 0 0), Event.irq (sampleEnv 0x0002 0),
            Event.worker (sampleEnv 0 0)]
      ∧ 1 ≤ ((Sys.start (extsmi_init (sampleEnv 0 0) State.initial).2.2).run
          [Event.worker (sampleEnv 0 0), Event.irq (sampleEnv 0x0002 0),
            Event.worker (sampleEnv 0 0)]).passes :=
  have h := passes_bound_amended (extsmi_init (sampleEnv 0 0) State.initial).2.2
    [Event.worker (sampleEnv 0 0), Event.irq (sampleEnv 0x0002 0),
      Event.worker (sampleEnv 0 0)] (by decide)
  ⟨by decide, h.2.1, h.2.2.2.1 (by decide)⟩

end Extsmi
